import Mathlib

/-!
Verification of the BTC-based stock price predictor.

This file gives a shallow embedding of the prediction, sentiment and
market-data logic of the repository and proves or refutes the frozen
claims about it.  Real-valued arithmetic of the Python/numpy code is
modelled over the real numbers; optional floats become Option values;
code that may raise becomes Except-valued.
-/

set_option linter.unusedVariables false

namespace Predictor

/-! ## Ordinary least squares (embedding of sklearn LinearRegression on one feature)

The points are (x, y) pairs.  sklearn with fit_intercept=True on a single
feature computes slope = Sxy / Sxx on centred data (the minimum-norm
solution slope = 0 when Sxx = 0, which the Lean convention x / 0 = 0
reproduces), intercept = ybar - slope * xbar, and score = 1 - SSres / SStot
(for a fitted model SStot = 0 forces SSres = 0 where sklearn reports 1.0,
again matching the convention x / 0 = 0).
-/

noncomputable def meanList (l : List ℝ) : ℝ := l.sum / l.length

noncomputable def xbar (pts : List (ℝ × ℝ)) : ℝ := meanList (pts.map Prod.fst)

noncomputable def ybar (pts : List (ℝ × ℝ)) : ℝ := meanList (pts.map Prod.snd)

noncomputable def sxx (pts : List (ℝ × ℝ)) : ℝ :=
  (pts.map (fun p => (p.1 - xbar pts) ^ 2)).sum

noncomputable def sxy (pts : List (ℝ × ℝ)) : ℝ :=
  (pts.map (fun p => (p.1 - xbar pts) * (p.2 - ybar pts))).sum

noncomputable def syy (pts : List (ℝ × ℝ)) : ℝ :=
  (pts.map (fun p => (p.2 - ybar pts) ^ 2)).sum

noncomputable def olsSlope (pts : List (ℝ × ℝ)) : ℝ := sxy pts / sxx pts

noncomputable def olsIntercept (pts : List (ℝ × ℝ)) : ℝ :=
  ybar pts - olsSlope pts * xbar pts

noncomputable def ssRes (pts : List (ℝ × ℝ)) : ℝ :=
  (pts.map (fun p => (p.2 - (olsIntercept pts + olsSlope pts * p.1)) ^ 2)).sum

noncomputable def rSquared (pts : List (ℝ × ℝ)) : ℝ := 1 - ssRes pts / syy pts

/-! ## Historical data and log returns

A row of the aligned historical frame is a pair (BTC-USD close, ticker close).
np.log(data / data.shift(1)).dropna() keeps, for every consecutive pair of
rows, the componentwise log of the ratio.
-/

noncomputable def logReturns : List (ℝ × ℝ) → List (ℝ × ℝ)
  | [] => []
  | [_] => []
  | p :: q :: rest =>
      (Real.log (q.1 / p.1), Real.log (q.2 / p.2)) :: logReturns (q :: rest)

/-! ## PredictionService.predict_price -/

structure PredictionResult where
  current_btc_price : ℝ
  current_stock_price : ℝ
  predicted_stock_price_beta : ℝ
  predicted_stock_price_power_law : ℝ
  beta : ℝ
  correlation : ℝ

/-- Python expression "opt or d" for an optional float: None and 0.0 are
falsy, every other float is truthy. -/
noncomputable def pyOrFloat (opt : Option ℝ) (d : ℝ) : ℝ :=
  match opt with
  | none => d
  | some q => if q = 0 then d else q

/-- Current price resolution of predict_price, step 3: start from the manual
value and, when it is not positive, replace it by the realtime quote with
the last historical close as fallback for a missing quote. -/
noncomputable def resolveCurrentPrice (manual : ℝ) (realtime : Option ℝ)
    (lastClose : ℝ) : ℝ :=
  if manual ≤ 0 then pyOrFloat realtime lastClose else manual

/-- Resolution rule in the words of the specification: manual override when
positive, else the realtime quote when one is available, else the last value
of the historical series. -/
noncomputable def specResolveCurrentPrice (manual : ℝ) (realtime : Option ℝ)
    (lastClose : ℝ) : ℝ :=
  if 0 < manual then manual
  else match realtime with
    | some q => q
    | none => lastClose

/-- Body of PredictionService.predict_price after the row-count guard.
Arguments mirror the Python signature; the realtime prices stand for the
values of get_realtime_btc_price and get_realtime_stock_price. -/
noncomputable def computePrediction (data : List (ℝ × ℝ))
    (target_btc_price event_impact_multiplier manual_current_btc
      manual_current_stock : ℝ)
    (realtime_btc realtime_stock : Option ℝ) : PredictionResult :=
  let returns := logReturns data
  let beta := olsSlope returns
  let r_squared := rSquared returns
  let correlation :=
    if 0 < beta then Real.sqrt r_squared else -Real.sqrt r_squared
  let current_btc :=
    resolveCurrentPrice manual_current_btc realtime_btc (data.getLastD (0, 0)).1
  let current_stock :=
    resolveCurrentPrice manual_current_stock realtime_stock
      (data.getLastD (0, 0)).2
  let btc_return := (target_btc_price - current_btc) / current_btc
  let pred_beta := current_stock * (1 + beta * btc_return) *
    event_impact_multiplier
  let log_prices := data.map (fun p => (Real.log p.1, Real.log p.2))
  let pred_power_law :=
    if 0 < target_btc_price then
      Real.exp (olsIntercept log_prices +
          olsSlope log_prices * Real.log target_btc_price) *
        event_impact_multiplier
    else 0
  { current_btc_price := current_btc
    current_stock_price := current_stock
    predicted_stock_price_beta := pred_beta
    predicted_stock_price_power_law := pred_power_law
    beta := beta
    correlation := correlation }

/-- PredictionService.predict_price: None (the InsufficientData sentinel)
when the aligned frame is empty or has fewer than 10 rows, otherwise the
computed PredictionResult. -/
noncomputable def predict_price (data : List (ℝ × ℝ))
    (target_btc_price event_impact_multiplier manual_current_btc
      manual_current_stock : ℝ)
    (realtime_btc realtime_stock : Option ℝ) : Option PredictionResult :=
  if data.length < 10 then none
  else some (computePrediction data target_btc_price event_impact_multiplier
    manual_current_btc manual_current_stock realtime_btc realtime_stock)

/-! ## Field lemmas for computePrediction -/

theorem computePrediction_beta (data : List (ℝ × ℝ)) (t m mb ms : ℝ)
    (rb rs : Option ℝ) :
    (computePrediction data t m mb ms rb rs).beta = olsSlope (logReturns data) :=
  rfl

theorem computePrediction_correlation (data : List (ℝ × ℝ)) (t m mb ms : ℝ)
    (rb rs : Option ℝ) :
    (computePrediction data t m mb ms rb rs).correlation =
      (if 0 < olsSlope (logReturns data) then
        Real.sqrt (rSquared (logReturns data))
      else -Real.sqrt (rSquared (logReturns data))) :=
  rfl

theorem computePrediction_power_law (data : List (ℝ × ℝ)) (t m mb ms : ℝ)
    (rb rs : Option ℝ) :
    (computePrediction data t m mb ms rb rs).predicted_stock_price_power_law =
      (if 0 < t then
        Real.exp (olsIntercept (data.map (fun p => (Real.log p.1, Real.log p.2))) +
            olsSlope (data.map (fun p => (Real.log p.1, Real.log p.2))) *
              Real.log t) * m
      else 0) :=
  rfl

theorem computePrediction_current_btc (data : List (ℝ × ℝ)) (t m mb ms : ℝ)
    (rb rs : Option ℝ) :
    (computePrediction data t m mb ms rb rs).current_btc_price =
      resolveCurrentPrice mb rb (data.getLastD (0, 0)).1 :=
  rfl

theorem computePrediction_current_stock (data : List (ℝ × ℝ)) (t m mb ms : ℝ)
    (rb rs : Option ℝ) :
    (computePrediction data t m mb ms rb rs).current_stock_price =
      resolveCurrentPrice ms rs (data.getLastD (0, 0)).2 :=
  rfl

theorem predict_price_of_enough (data : List (ℝ × ℝ)) (t m mb ms : ℝ)
    (rb rs : Option ℝ) (h10 : 10 ≤ data.length) :
    predict_price data t m mb ms rb rs =
      some (computePrediction data t m mb ms rb rs) := by
  unfold predict_price
  rw [if_neg (by omega)]

/-! ## OLS algebra -/

theorem sum_affine_sq (l : List (ℝ × ℝ)) (mx my b : ℝ) :
    (l.map (fun p => ((p.2 - my) - b * (p.1 - mx)) ^ 2)).sum =
      (l.map (fun p => (p.2 - my) ^ 2)).sum -
        2 * b * (l.map (fun p => (p.1 - mx) * (p.2 - my))).sum +
        b ^ 2 * (l.map (fun p => (p.1 - mx) ^ 2)).sum := by
  induction l with
  | nil => simp
  | cons a l ih =>
      simp only [List.map_cons, List.sum_cons, ih]
      ring

theorem ssRes_eq (pts : List (ℝ × ℝ)) :
    ssRes pts = syy pts - 2 * olsSlope pts * sxy pts +
      olsSlope pts ^ 2 * sxx pts := by
  have h : (fun p : ℝ × ℝ =>
      (p.2 - (olsIntercept pts + olsSlope pts * p.1)) ^ 2) =
      fun p : ℝ × ℝ =>
        ((p.2 - ybar pts) - olsSlope pts * (p.1 - xbar pts)) ^ 2 := by
    funext p
    unfold olsIntercept
    ring
  unfold ssRes syy sxy sxx
  rw [h, sum_affine_sq]

theorem sq_sum_nonneg (l : List (ℝ × ℝ)) (g : ℝ × ℝ → ℝ) :
    0 ≤ (l.map (fun p => (g p) ^ 2)).sum := by
  apply List.sum_nonneg
  intro x hx
  simp only [List.mem_map] at hx
  obtain ⟨p, _, rfl⟩ := hx
  positivity

theorem sxx_nonneg (pts : List (ℝ × ℝ)) : 0 ≤ sxx pts :=
  sq_sum_nonneg pts _

theorem syy_nonneg (pts : List (ℝ × ℝ)) : 0 ≤ syy pts :=
  sq_sum_nonneg pts _

theorem rSquared_eq (pts : List (ℝ × ℝ)) (hsyy : syy pts ≠ 0) :
    rSquared pts = sxy pts ^ 2 / (sxx pts * syy pts) := by
  unfold rSquared
  rw [ssRes_eq]
  by_cases hsxx : sxx pts = 0
  · rw [hsxx]
    simp only [olsSlope, hsxx, div_zero, mul_zero, zero_mul, sub_zero,
      add_zero, zero_pow, zero_mul, mul_zero, ne_eq, OfNat.ofNat_ne_zero,
      not_false_eq_true, zero_mul]
    rw [div_self hsyy]
    simp
  · unfold olsSlope
    field_simp
    ring

theorem rSquared_of_slope_zero (pts : List (ℝ × ℝ)) (hsyy : syy pts ≠ 0)
    (h0 : olsSlope pts = 0) : rSquared pts = 0 := by
  rw [rSquared_eq pts hsyy]
  rcases div_eq_zero_iff.mp h0 with h | h
  · rw [h]
    simp
  · rw [h]
    simp

theorem rSquared_pos_of_slope_pos (pts : List (ℝ × ℝ)) (hsyy : syy pts ≠ 0)
    (hb : 0 < olsSlope pts) : 0 < rSquared pts := by
  rw [rSquared_eq pts hsyy]
  have hsxx : 0 < sxx pts := by
    rcases lt_or_eq_of_le (sxx_nonneg pts) with h | h
    · exact h
    · exfalso
      rw [olsSlope, ← h, div_zero] at hb
      exact lt_irrefl 0 hb
  have hsxy : sxy pts ≠ 0 := by
    intro h
    rw [olsSlope, h, zero_div] at hb
    exact lt_irrefl 0 hb
  have hsyyp : 0 < syy pts := lt_of_le_of_ne (syy_nonneg pts) (Ne.symm hsyy)
  exact div_pos (by positivity) (by positivity)

theorem rSquared_pos_of_slope_neg (pts : List (ℝ × ℝ)) (hsyy : syy pts ≠ 0)
    (hb : olsSlope pts < 0) : 0 < rSquared pts := by
  rw [rSquared_eq pts hsyy]
  have hsxx : 0 < sxx pts := by
    rcases lt_or_eq_of_le (sxx_nonneg pts) with h | h
    · exact h
    · exfalso
      rw [olsSlope, ← h, div_zero] at hb
      exact lt_irrefl 0 hb
  have hsxy : sxy pts ≠ 0 := by
    intro h
    rw [olsSlope, h, zero_div] at hb
    exact lt_irrefl 0 hb
  have hsyyp : 0 < syy pts := lt_of_le_of_ne (syy_nonneg pts) (Ne.symm hsyy)
  exact div_pos (by positivity) (by positivity)

/-- C1 (amended): for an aligned series with at least 10 rows whose proxy
log-returns are not all identical (return SStot nonzero), the correlation
returned by predict_price is sign(beta) * sqrt(R-squared) of the return
regression: plus sqrt when beta is positive, minus sqrt when beta is
negative, exactly 0 when beta = 0; it always has the sign of beta and its
absolute value is sqrt(R-squared).  The degeneracy hypothesis is forced by
the counterexample with a constant proxy series. -/
theorem correlation_sign_beta_sqrt_rsq (data : List (ℝ × ℝ))
    (t m mb ms : ℝ) (rb rs : Option ℝ) (h10 : 10 ≤ data.length)
    (hsyy : syy (logReturns data) ≠ 0) :
    predict_price data t m mb ms rb rs =
      some (computePrediction data t m mb ms rb rs) ∧
    (computePrediction data t m mb ms rb rs).beta =
      olsSlope (logReturns data) ∧
    (0 < (computePrediction data t m mb ms rb rs).beta →
      (computePrediction data t m mb ms rb rs).correlation =
        Real.sqrt (rSquared (logReturns data)) ∧
      0 < (computePrediction data t m mb ms rb rs).correlation) ∧
    ((computePrediction data t m mb ms rb rs).beta < 0 →
      (computePrediction data t m mb ms rb rs).correlation =
        -Real.sqrt (rSquared (logReturns data)) ∧
      (computePrediction data t m mb ms rb rs).correlation < 0) ∧
    ((computePrediction data t m mb ms rb rs).beta = 0 →
      (computePrediction data t m mb ms rb rs).correlation = 0) ∧
    |(computePrediction data t m mb ms rb rs).correlation| =
      Real.sqrt (rSquared (logReturns data)) := by
  rw [computePrediction_beta, computePrediction_correlation]
  refine ⟨predict_price_of_enough data t m mb ms rb rs h10, rfl, ?_, ?_, ?_, ?_⟩
  · intro hb
    rw [if_pos hb]
    exact ⟨rfl, Real.sqrt_pos.mpr (rSquared_pos_of_slope_pos _ hsyy hb)⟩
  · intro hb
    rw [if_neg (not_lt.mpr (le_of_lt hb))]
    have := Real.sqrt_pos.mpr (rSquared_pos_of_slope_neg _ hsyy hb)
    exact ⟨rfl, by linarith⟩
  · intro hb
    rw [if_neg (by rw [hb]; exact lt_irrefl 0)]
    rw [rSquared_of_slope_zero _ hsyy hb, Real.sqrt_zero, neg_zero]
  · by_cases hb : 0 < olsSlope (logReturns data)
    · rw [if_pos hb]
      exact abs_of_nonneg (Real.sqrt_nonneg _)
    · rw [if_neg hb, abs_neg]
      exact abs_of_nonneg (Real.sqrt_nonneg _)

/-! ## Concrete series

dataC1: ten rows whose proxy close is the constant 5 while the reference
close doubles in log-space; every proxy log-return is 0, so beta = 0 while
the fit is reported as perfect (R-squared 1) and the returned correlation
is -1, not 0.

dataW: ten rows with constant reference close and alternating proxy close,
a series whose proxy log-returns are not all equal. -/

noncomputable def dataC1 : List (ℝ × ℝ) :=
  [(Real.exp 0, 5), (Real.exp 1, 5), (Real.exp 2, 5), (Real.exp 3, 5),
   (Real.exp 4, 5), (Real.exp 5, 5), (Real.exp 6, 5), (Real.exp 7, 5),
   (Real.exp 8, 5), (Real.exp 9, 5)]

noncomputable def dataW : List (ℝ × ℝ) :=
  [(1, Real.exp 0), (1, Real.exp 1), (1, Real.exp 0), (1, Real.exp 1),
   (1, Real.exp 0), (1, Real.exp 1), (1, Real.exp 0), (1, Real.exp 1),
   (1, Real.exp 0), (1, Real.exp 1)]

theorem logReturns_dataC1 :
    logReturns dataC1 = List.replicate 9 ((1 : ℝ), (0 : ℝ)) := by
  show logReturns dataC1 = [(1, 0), (1, 0), (1, 0), (1, 0), (1, 0), (1, 0),
    (1, 0), (1, 0), (1, 0)]
  simp only [dataC1, logReturns, ← Real.exp_sub, Real.log_exp]
  norm_num

theorem logReturns_dataW :
    logReturns dataW = [((0 : ℝ), (1 : ℝ)), (0, -1), (0, 1), (0, -1), (0, 1),
      (0, -1), (0, 1), (0, -1), (0, 1)] := by
  simp only [dataW, logReturns, ← Real.exp_sub, Real.log_exp]
  norm_num

theorem syy_dataW : syy (logReturns dataW) = 80 / 9 := by
  rw [logReturns_dataW]
  simp only [syy, ybar, meanList, List.map_cons, List.map_nil,
    List.sum_cons, List.sum_nil, List.length_cons, List.length_nil]
  norm_num

theorem xbar_replC1 : xbar (List.replicate 9 ((1 : ℝ), (0 : ℝ))) = 1 := by
  simp only [xbar, meanList, List.map_replicate, List.sum_replicate,
    List.length_replicate]
  norm_num

theorem olsSlope_replC1 : olsSlope (List.replicate 9 ((1 : ℝ), (0 : ℝ))) = 0 := by
  have hs : sxy (List.replicate 9 ((1 : ℝ), (0 : ℝ))) = 0 := by
    simp only [sxy, xbar_replC1, List.map_replicate, List.sum_replicate]
    norm_num
  rw [olsSlope, hs, zero_div]

theorem rSquared_replC1 : rSquared (List.replicate 9 ((1 : ℝ), (0 : ℝ))) = 1 := by
  have hy : ybar (List.replicate 9 ((1 : ℝ), (0 : ℝ))) = 0 := by
    simp only [ybar, meanList, List.map_replicate, List.sum_replicate,
      List.length_replicate]
    norm_num
  have hres : ssRes (List.replicate 9 ((1 : ℝ), (0 : ℝ))) = 0 := by
    simp only [ssRes, olsIntercept, olsSlope_replC1, hy, xbar_replC1,
      List.map_replicate, List.sum_replicate]
    norm_num
  have hsyy : syy (List.replicate 9 ((1 : ℝ), (0 : ℝ))) = 0 := by
    simp only [syy, hy, List.map_replicate, List.sum_replicate]
    norm_num
  rw [rSquared, hres, hsyy]
  norm_num

/-- C1 counterexample: on the concrete ten-row series dataC1 whose proxy
close is constant, predict_price returns beta = 0 but correlation = -1
(the regression is reported as a perfect fit of the constant series), so
the claimed edge case beta = 0 implies correlation = 0 fails. -/
theorem correlation_constant_proxy_counterexample :
    (computePrediction dataC1 100 1 0 0 none none).beta = 0 ∧
    (computePrediction dataC1 100 1 0 0 none none).correlation = -1 ∧
    (computePrediction dataC1 100 1 0 0 none none).correlation ≠ 0 ∧
    predict_price dataC1 100 1 0 0 none none =
      some (computePrediction dataC1 100 1 0 0 none none) := by
  have hb : (computePrediction dataC1 100 1 0 0 none none).beta = 0 := by
    rw [computePrediction_beta, logReturns_dataC1, olsSlope_replC1]
  have hc : (computePrediction dataC1 100 1 0 0 none none).correlation = -1 := by
    rw [computePrediction_correlation, logReturns_dataC1,
      if_neg (by rw [olsSlope_replC1]; exact lt_irrefl 0), rSquared_replC1,
      Real.sqrt_one]
  refine ⟨hb, hc, by rw [hc]; norm_num, ?_⟩
  exact predict_price_of_enough _ _ _ _ _ _ _ (by norm_num [dataC1])

/-- C1 witness: the amended theorem applied to the concrete ten-row series
dataW, whose proxy log-returns are not all equal. -/
theorem correlation_sign_beta_sqrt_rsq_witness :
    (computePrediction dataW 2 1 0 0 none none).beta =
      olsSlope (logReturns dataW) :=
  (correlation_sign_beta_sqrt_rsq dataW 2 1 0 0 none none
    (by norm_num [dataW]) (by rw [syy_dataW]; norm_num)).2.1

/-- C2: for an aligned series with at least 10 rows, predict_price returns a
result whose power-law prediction is exp(intercept + slope * ln target)
times the event multiplier when the target is positive, where intercept and
slope are the OLS fit of the log proxy closes on the log reference closes
over the full aligned history, and is exactly 0 when the target is not
positive. -/
theorem power_law_prediction_eq (data : List (ℝ × ℝ)) (t m mb ms : ℝ)
    (rb rs : Option ℝ) (h10 : 10 ≤ data.length) :
    predict_price data t m mb ms rb rs =
      some (computePrediction data t m mb ms rb rs) ∧
    (0 < t →
      (computePrediction data t m mb ms rb rs).predicted_stock_price_power_law =
        Real.exp
          (olsIntercept (data.map (fun p => (Real.log p.1, Real.log p.2))) +
            olsSlope (data.map (fun p => (Real.log p.1, Real.log p.2))) *
              Real.log t) * m) ∧
    (t ≤ 0 →
      (computePrediction data t m mb ms rb rs).predicted_stock_price_power_law
        = 0) := by
  refine ⟨predict_price_of_enough data t m mb ms rb rs h10, ?_, ?_⟩
  · intro ht
    rw [computePrediction_power_law, if_pos ht]
  · intro ht
    rw [computePrediction_power_law, if_neg (not_lt.mpr ht)]

/-- C2 witness: the power-law equation of the claim evaluated on the
concrete ten-row series dataW at target 2, event multiplier 1. -/
theorem power_law_prediction_eq_witness :
    (computePrediction dataW 2 1 1 1 none none).predicted_stock_price_power_law
      = Real.exp
          (olsIntercept (dataW.map (fun p => (Real.log p.1, Real.log p.2))) +
            olsSlope (dataW.map (fun p => (Real.log p.1, Real.log p.2))) *
              Real.log 2) * 1 :=
  (power_law_prediction_eq dataW 2 1 1 1 none none
    (by norm_num [dataW])).2.1 (by norm_num)

/-- C3: the current reference and proxy prices are each resolved with the
priority manual override (used exactly when positive), then realtime quote
when available, then last historical close; the code resolution agrees with
the specification resolution whenever any present quote is a positive
price, and with manual 50000, realtime 60000, series-last 55000 the
resolved price is 50000.  Both resolutions are performed independently
inside predict_price. -/
theorem current_price_resolution_priority (manual lastClose : ℝ)
    (realtime : Option ℝ) (hq : ∀ q, realtime = some q → 0 < q) :
    resolveCurrentPrice manual realtime lastClose =
      specResolveCurrentPrice manual realtime lastClose ∧
    (0 < manual → resolveCurrentPrice manual realtime lastClose = manual) ∧
    (manual ≤ 0 → ∀ q, realtime = some q →
      resolveCurrentPrice manual realtime lastClose = q) ∧
    (manual ≤ 0 → realtime = none →
      resolveCurrentPrice manual realtime lastClose = lastClose) ∧
    resolveCurrentPrice 50000 (some 60000) 55000 = 50000 ∧
    (∀ (data : List (ℝ × ℝ)) (t m mb ms : ℝ) (rb rs : Option ℝ),
      (computePrediction data t m mb ms rb rs).current_btc_price =
        resolveCurrentPrice mb rb (data.getLastD (0, 0)).1 ∧
      (computePrediction data t m mb ms rb rs).current_stock_price =
        resolveCurrentPrice ms rs (data.getLastD (0, 0)).2) := by
  have hmain : resolveCurrentPrice manual realtime lastClose =
      specResolveCurrentPrice manual realtime lastClose := by
    rcases realtime with _ | q
    · unfold resolveCurrentPrice specResolveCurrentPrice pyOrFloat
      by_cases h1 : manual ≤ 0
      · rw [if_pos h1, if_neg (not_lt.mpr h1)]
      · rw [if_neg h1, if_pos (lt_of_not_le h1)]
    · have hq0 : q ≠ 0 := ne_of_gt (hq q rfl)
      unfold resolveCurrentPrice specResolveCurrentPrice pyOrFloat
      by_cases h1 : manual ≤ 0
      · rw [if_pos h1, if_neg (not_lt.mpr h1)]
        exact if_neg hq0
      · rw [if_neg h1, if_pos (lt_of_not_le h1)]
  refine ⟨hmain, ?_, ?_, ?_, ?_, fun data t m mb ms rb rs => ⟨rfl, rfl⟩⟩
  · intro h
    unfold resolveCurrentPrice
    rw [if_neg (not_le.mpr h)]
  · intro h q hrt
    unfold resolveCurrentPrice
    rw [if_pos h, hrt]
    exact if_neg (ne_of_gt (hq q hrt))
  · intro h hrt
    unfold resolveCurrentPrice
    rw [if_pos h, hrt]
    rfl
  · unfold resolveCurrentPrice
    rw [if_neg (by norm_num)]

/-- C3 witness: the resolution theorem applied at manual override 50000,
realtime quote 60000 and last historical close 55000. -/
theorem current_price_resolution_priority_witness :
    resolveCurrentPrice 50000 (some 60000) 55000 = 50000 :=
  (current_price_resolution_priority 50000 55000 (some 60000)
    (by
      intro q h
      simp only [Option.some.injEq] at h
      rw [← h]
      norm_num)).2.2.2.2.1

/-- C4: predict_price returns the None sentinel exactly when the aligned
series has fewer than 10 rows, and for every series of at least 10 rows and
all further arguments it returns some PredictionResult; in the embedding
every remaining step is total arithmetic, so insufficiency is the only
abort condition. -/
theorem predict_price_insufficient_data_iff :
    ∀ (data : List (ℝ × ℝ)) (t m mb ms : ℝ) (rb rs : Option ℝ),
      (predict_price data t m mb ms rb rs = none ↔ data.length < 10) ∧
      ((predict_price data t m mb ms rb rs).isSome ↔ 10 ≤ data.length) := by
  intro data t m mb ms rb rs
  constructor
  · unfold predict_price
    split_ifs with h
    · simp [h]
    · simp [h]
  · unfold predict_price
    split_ifs with h
    · simp
      omega
    · simp
      omega

/-! ## MarketDataProvider.get_historical_data

A fetched row carries the two close columns, either of which may be
missing for a date; data.dropna() keeps the rows where both are present.
The try/except of the method returns the empty frame only when the
underlying fetch raises.
-/

def dropna (rows : List (Option ℝ × Option ℝ)) : List (ℝ × ℝ) :=
  rows.filterMap (fun r =>
    match r with
    | (some a, some b) => some (a, b)
    | _ => none)

/-- get_historical_data: joined close columns with incomplete rows dropped;
the empty frame is produced only by the exception handler.  The method has
no minimum-row check of its own. -/
def get_historical_data (fetched : Except Unit (List (Option ℝ × Option ℝ))) :
    List (ℝ × ℝ) :=
  match fetched with
  | .error _ => []
  | .ok rows => dropna rows

theorem dropna_length (rows : List (Option ℝ × Option ℝ)) :
    (dropna rows).length = rows.countP (fun r => r.1.isSome && r.2.isSome) := by
  induction rows with
  | nil => rfl
  | cons r rs ih =>
      rcases r with ⟨_ | a, _ | b⟩ <;>
        simp [dropna, List.filterMap_cons, List.countP_cons] at ih ⊢ <;>
        omega

/-- C5 (amended): get_historical_data returns exactly the aligned rows that
survive dropping dates with a missing value, however few, and returns the
empty series only when the underlying fetch raises; the fewer-than-10 guard
is enforced by the callers, not by this gateway method. -/
theorem historical_data_returns_aligned_rows :
    (∀ rows, get_historical_data (Except.ok rows) = dropna rows) ∧
    (∀ rows, (get_historical_data (Except.ok rows)).length =
      rows.countP (fun r => r.1.isSome && r.2.isSome)) ∧
    (∀ e, get_historical_data (Except.error e) = []) :=
  ⟨fun rows => rfl, fun rows => dropna_length rows, fun e => rfl⟩

def fetchedC5 : List (Option ℝ × Option ℝ) :=
  [(some 1, some 2), (some 2, some 3), (some 3, none), (some 4, some 5),
   (some 5, some 6), (some 6, some 7)]

/-- C5 counterexample: a fetched data set with exactly 5 aligned rows for
which get_historical_data returns those 5 rows, not an empty series, even
though fewer than 10 aligned rows remain. -/
theorem historical_data_no_min_rows_counterexample :
    (get_historical_data (Except.ok fetchedC5)).length = 5 ∧
    (get_historical_data (Except.ok fetchedC5)).length < 10 ∧
    get_historical_data (Except.ok fetchedC5) ≠ [] := by
  have h5 : (get_historical_data (Except.ok fetchedC5)).length = 5 := rfl
  refine ⟨h5, by rw [h5]; norm_num, ?_⟩
  intro h
  rw [h] at h5
  simp at h5

/-! ## SentimentAnalyzer.analyze

models.SentimentResult is a pydantic BaseModel declaring exactly the three
fields score, label and analyzed_items; by the default pydantic
configuration every extra keyword argument passed to the constructor is
ignored.  The per-item metadata dictionaries are modelled as
(scoring text, score) pairs.
-/

structure SentimentResult where
  score : ℚ
  label : String
  analyzed_items : List (String × ℚ)
deriving DecidableEq

inductive FeedItem where
  | news (title : String) (summary : Option String)
  | social (content : String)
deriving DecidableEq

/-- Scoring text: news items concatenate title and summary around a dot,
social posts use the raw content. -/
def scoringText : FeedItem → String
  | .news title summary => title ++ ". " ++ summary.getD ""
  | .social content => content

/-- Python str.strip: remove leading and trailing whitespace. -/
def pyStrip (s : String) : String :=
  ⟨((s.data.dropWhile Char.isWhitespace).reverse.dropWhile
      Char.isWhitespace).reverse⟩

/-- Items whose scoring text strips to the empty string are skipped. -/
def keptItems (items : List FeedItem) : List FeedItem :=
  items.filter (fun i => pyStrip (scoringText i) != "")

/-- SentimentAnalyzer._get_label_from_score. -/
def labelFromScore (score : ℚ) : String :=
  if score ≥ 0.1 then if score < 0.5 then "Bullish" else "Very Bullish"
  else if score ≤ -0.1 then
    if score > -0.5 then "Bearish" else "Very Bearish"
  else "Neutral"

/-- SentimentAnalyzer.analyze, parameterised by the per-item scorer (the
FinBERT signed confidence or the VADER fallback), which consumes the
scoring text.  Whitespace-only items are skipped; with no scored items the
result is score 0, label Neutral; otherwise the score is the arithmetic
mean (np.mean) of the per-item scores. -/
def analyze (scoreOf : String → ℚ) (items : List FeedItem) : SentimentResult :=
  let kept := keptItems items
  let scores := kept.map (fun i => scoreOf (scoringText i))
  if scores.isEmpty then { score := 0, label := "Neutral", analyzed_items := [] }
  else
    { score := scores.sum / scores.length
      label := labelFromScore (scores.sum / scores.length)
      analyzed_items :=
        kept.map (fun i => (scoringText i, scoreOf (scoringText i))) }

/-! ## PredictionService.get_market_sentiment -/

/-- Composite score: 50 percent text sentiment, 50 percent price trend. -/
def compositeScore (sentiment_score trend_score : ℚ) : ℚ :=
  sentiment_score * 0.5 + trend_score * 0.5

/-- Composite label with strict thresholds at 0.2 and -0.2. -/
def compositeLabel (c : ℚ) : String :=
  if c > 0.2 then "Bullish" else if c < -0.2 then "Bearish" else "Neutral"

/-- Construction of models.SentimentResult with the keyword arguments used
in get_market_sentiment: the four trend and composite arguments are not
fields of the model and pydantic silently drops them. -/
def mkSentimentResult (score : ℚ) (label : String) (trend_score : ℚ)
    (trend_label : String) (composite_score : ℚ) (composite_label : String)
    (analyzed_items : List (String × ℚ)) : SentimentResult :=
  { score := score, label := label, analyzed_items := analyzed_items }

/-- PredictionService.get_market_sentiment once the base sentiment result
and the price-trend score and label are known: blend the scores 50/50,
label the blend, and build the returned SentimentResult. -/
def get_market_sentiment (base : SentimentResult) (trend_score : ℚ)
    (trend_label : String) : SentimentResult :=
  let composite_score := compositeScore base.score trend_score
  let composite_label := compositeLabel composite_score
  mkSentimentResult base.score base.label trend_score trend_label
    composite_score composite_label base.analyzed_items

/-- C6: the composite score is 0.5 times the sentiment score plus 0.5 times
the trend score; its label is Bullish exactly when the score exceeds 0.2,
Bearish exactly when it is below -0.2, Neutral otherwise; and sentiment 0.6
with trend -0.2 gives composite exactly 0.2, labelled Neutral because the
0.2 boundary is exclusive. -/
theorem composite_signal_spec :
    (∀ s t : ℚ, compositeScore s t = 0.5 * s + 0.5 * t) ∧
    (∀ c : ℚ, (compositeLabel c = "Bullish" ↔ 0.2 < c) ∧
      (compositeLabel c = "Bearish" ↔ c < -0.2) ∧
      (compositeLabel c = "Neutral" ↔ -0.2 ≤ c ∧ c ≤ 0.2)) ∧
    compositeScore 0.6 (-0.2) = 0.2 ∧
    compositeLabel (compositeScore 0.6 (-0.2)) = "Neutral" := by
  have hc : compositeScore 0.6 (-0.2) = 0.2 := by
    unfold compositeScore
    norm_num
  refine ⟨fun s t => by unfold compositeScore; ring, ?_, hc, ?_⟩
  · intro c
    unfold compositeLabel
    refine ⟨?_, ?_, ?_⟩ <;> split_ifs with h1 h2 <;> simp <;>
      first
        | linarith
        | (constructor <;> linarith)
        | (intro hx; linarith)
        | (rintro ⟨hx, hy⟩; linarith)
        | (refine ⟨by linarith, by linarith⟩)
  · rw [hc]
    unfold compositeLabel
    rw [if_neg (by norm_num), if_neg (by norm_num)]

/-- C10 (code bug): the value returned by get_market_sentiment does not
carry the trend and composite fields: two calls with the same base
sentiment but different trend data return identical SentimentResult values
equal to the plain base result, even though the composite labels computed
inside the method differ. -/
theorem sentiment_result_drops_trend_fields :
    get_market_sentiment
        { score := 3/5, label := "Bullish", analyzed_items := [] }
        (1/2) "Bullish" =
      get_market_sentiment
        { score := 3/5, label := "Bullish", analyzed_items := [] }
        (-1/2) "Bearish" ∧
    get_market_sentiment
        { score := 3/5, label := "Bullish", analyzed_items := [] }
        (1/2) "Bullish" =
      { score := 3/5, label := "Bullish", analyzed_items := [] } ∧
    compositeLabel (compositeScore (3/5) (1/2)) ≠
      compositeLabel (compositeScore (3/5) (-1/2)) := by
  have h1 : compositeLabel (compositeScore (3/5) (1/2)) = "Bullish" := by
    unfold compositeScore compositeLabel
    rw [if_pos (by norm_num)]
  have h2 : compositeLabel (compositeScore (3/5) (-1/2)) = "Neutral" := by
    unfold compositeScore compositeLabel
    rw [if_neg (by norm_num), if_neg (by norm_num)]
  refine ⟨rfl, rfl, ?_⟩
  rw [h1, h2]
  simp

def exScorer : String → ℚ :=
  fun t => if t = "great" then 0.8 else if t = "awful" then -0.2 else 0

def exItems : List FeedItem :=
  [.social "great", .social "awful", .social "meh"]

theorem keptItems_exItems : keptItems exItems = exItems := by decide

theorem analyze_exItems : analyze exScorer exItems =
    { score := 0.2, label := "Bullish",
      analyzed_items := [("great", 0.8), ("awful", -0.2), ("meh", 0)] } := by
  unfold analyze
  rw [keptItems_exItems]
  simp only [exItems, scoringText, exScorer, List.map_cons, List.map_nil,
    List.isEmpty_cons, List.sum_cons, List.sum_nil, List.length_cons,
    List.length_nil]
  simp
  norm_num [labelFromScore]

/-- C7: analyze returns the arithmetic mean of the per-item scores over the
non-skipped items, returns score 0 and label Neutral for an empty item set,
labels the aggregate by the claimed thresholds, and on per-item scores
0.8, -0.2, 0 yields score 0.2 with label Bullish. -/
theorem sentiment_aggregation_spec :
    (∀ scoreOf : String → ℚ, analyze scoreOf [] =
      { score := 0, label := "Neutral", analyzed_items := [] }) ∧
    (∀ (scoreOf : String → ℚ) (items : List FeedItem),
      keptItems items ≠ [] →
      (analyze scoreOf items).score =
        ((keptItems items).map (fun i => scoreOf (scoringText i))).sum /
          (keptItems items).length ∧
      (analyze scoreOf items).label =
        labelFromScore
          (((keptItems items).map (fun i => scoreOf (scoringText i))).sum /
            (keptItems items).length)) ∧
    (∀ s : ℚ,
      (labelFromScore s = "Very Bullish" ↔ 0.5 ≤ s) ∧
      (labelFromScore s = "Bullish" ↔ 0.1 ≤ s ∧ s < 0.5) ∧
      (labelFromScore s = "Neutral" ↔ -0.1 < s ∧ s < 0.1) ∧
      (labelFromScore s = "Bearish" ↔ -0.5 < s ∧ s ≤ -0.1) ∧
      (labelFromScore s = "Very Bearish" ↔ s ≤ -0.5)) ∧
    (analyze exScorer exItems).score = 0.2 ∧
    (analyze exScorer exItems).label = "Bullish" := by
  refine ⟨fun scoreOf => rfl, ?_, ?_, by rw [analyze_exItems],
    by rw [analyze_exItems]⟩
  · intro scoreOf items hk
    have hne : ¬(((keptItems items).map
        (fun i => scoreOf (scoringText i))).isEmpty = true) := by
      simp [List.isEmpty_iff, hk]
    unfold analyze
    rw [if_neg hne]
    constructor
    · show (((keptItems items).map (fun i => scoreOf (scoringText i))).sum /
        ((keptItems items).map (fun i => scoreOf (scoringText i))).length) = _
      rw [List.length_map]
    · show labelFromScore _ = _
      rw [List.length_map]
  · intro s
    unfold labelFromScore
    refine ⟨?_, ?_, ?_, ?_, ?_⟩ <;> split_ifs with h1 h2 <;> simp <;>
      first
        | linarith
        | (constructor <;> linarith)
        | (intro hx; linarith)
        | (rintro ⟨hx, hy⟩; linarith)
        | (refine ⟨by linarith, by linarith⟩)

/-- C7 witness: the mean and label equations applied to the concrete item
set exItems with scorer exScorer, whose kept-item list is non-empty. -/
theorem sentiment_aggregation_spec_witness :
    (analyze exScorer exItems).score =
      ((keptItems exItems).map (fun i => exScorer (scoringText i))).sum /
        (keptItems exItems).length ∧
    (analyze exScorer exItems).label =
      labelFromScore
        (((keptItems exItems).map (fun i => exScorer (scoringText i))).sum /
          (keptItems exItems).length) :=
  sentiment_aggregation_spec.2.1 exScorer exItems (by decide)

/-! ## Market state in get_extended_stock_info -/

def secondsOfDay (h m s : ℕ) : ℕ := h * 3600 + m * 60 + s

/-- Time-window market state for a stock ticker: weekdays are 0 (Monday) to
6 (Sunday); weekends force CLOSED; otherwise the fixed windows on the
wall-clock seconds of the exchange-local day decide the state. -/
def computeMarketState (weekday secs : ℕ) : String :=
  let is_weekend := 5 ≤ weekday
  if ¬ is_weekend then
    if secondsOfDay 9 30 0 ≤ secs ∧ secs ≤ secondsOfDay 16 0 0 then "OPEN"
    else if secondsOfDay 4 0 0 ≤ secs ∧ secs < secondsOfDay 9 30 0 then "PRE"
    else if secondsOfDay 16 0 0 < secs ∧ secs ≤ secondsOfDay 20 0 0 then
      "POST"
    else "CLOSED"
  else "CLOSED"

/-- Explicit provider-reported market state: REGULAR maps to OPEN, the
three literal states PRE, POST, CLOSED pass through, anything else (a
missing or unrecognised value) leaves the computed state. -/
def applyProviderState (yahoo_state : Option String) (computed : String) :
    String :=
  match yahoo_state with
  | none => computed
  | some s =>
      if s = "" then computed
      else if s = "REGULAR" then "OPEN"
      else if s = "PRE" ∨ s = "POST" ∨ s = "CLOSED" then s
      else computed

/-- Market state reported by get_extended_stock_info for a stock ticker. -/
def extendedMarketState (weekday secs : ℕ) (yahoo_state : Option String) :
    String :=
  applyProviderState yahoo_state (computeMarketState weekday secs)

/-- C8: on weekdays the computed state is OPEN exactly in 09:30 to 16:00,
PRE exactly in 04:00 up to but excluding 09:30, POST exactly after 16:00 up
to 20:00, CLOSED otherwise and on weekends; an explicit provider state
among REGULAR, PRE, POST, CLOSED overrides the clock computation; at
exactly 09:30 on a weekday the state is OPEN, at 09:29:59 it is PRE, and on
Saturday or Sunday it is CLOSED at any time. -/
theorem market_state_windows_spec :
    (∀ wd secs : ℕ,
      (computeMarketState wd secs = "OPEN" ↔
        wd < 5 ∧ secondsOfDay 9 30 0 ≤ secs ∧ secs ≤ secondsOfDay 16 0 0) ∧
      (computeMarketState wd secs = "PRE" ↔
        wd < 5 ∧ secondsOfDay 4 0 0 ≤ secs ∧ secs < secondsOfDay 9 30 0) ∧
      (computeMarketState wd secs = "POST" ↔
        wd < 5 ∧ secondsOfDay 16 0 0 < secs ∧ secs ≤ secondsOfDay 20 0 0) ∧
      (computeMarketState wd secs = "CLOSED" ↔
        5 ≤ wd ∨ secs < secondsOfDay 4 0 0 ∨ secondsOfDay 20 0 0 < secs)) ∧
    (∀ wd secs : ℕ,
      extendedMarketState wd secs (some "REGULAR") = "OPEN" ∧
      extendedMarketState wd secs (some "PRE") = "PRE" ∧
      extendedMarketState wd secs (some "POST") = "POST" ∧
      extendedMarketState wd secs (some "CLOSED") = "CLOSED" ∧
      extendedMarketState wd secs none = computeMarketState wd secs) ∧
    computeMarketState 2 (secondsOfDay 9 30 0) = "OPEN" ∧
    computeMarketState 2 (secondsOfDay 9 29 59) = "PRE" ∧
    (∀ secs : ℕ, computeMarketState 5 secs = "CLOSED" ∧
      computeMarketState 6 secs = "CLOSED") := by
  refine ⟨?_, ?_, by decide, by decide, ?_⟩
  · intro wd secs
    unfold computeMarketState secondsOfDay
    by_cases hw : 5 ≤ wd
    · rw [if_neg (not_not_intro hw)]
      refine ⟨?_, ?_, ?_, ?_⟩ <;> simp <;> omega
    · rw [if_pos hw]
      split_ifs with ho hp hpo <;> refine ⟨?_, ?_, ?_, ?_⟩ <;> simp <;> omega
  · intro wd secs
    refine ⟨?_, ?_, ?_, ?_, rfl⟩ <;>
      simp [extendedMarketState, applyProviderState]
  · intro secs
    constructor <;> simp [computeMarketState]

/-! ## MarketDataProvider.get_news

The raw provider items are dynamically typed dictionaries; RawVal models
the Python values that occur in them.  A .get call on a non-dictionary and
a pydantic validation failure of a NewsItem field both raise, which the
Except error value models.  The single try/except of get_news wraps the
whole normalisation loop, so the first raising item discards the entire
batch and the handler returns the empty list.
-/

inductive RawVal where
  | vnull
  | vstr (s : String)
  | vnum (n : Int)
  | vdict (fields : List (String × RawVal))

/-- Python truthiness of a raw value. -/
def pyTruthy : RawVal → Bool
  | .vnull => false
  | .vstr s => s != ""
  | .vnum n => n != 0
  | .vdict fs => !fs.isEmpty

/-- Python value.get(key, default): succeeds only on dictionaries, raising
AttributeError otherwise. -/
def pyGet (v : RawVal) (key : String) (dflt : RawVal) : Except Unit RawVal :=
  match v with
  | .vdict fs => .ok ((fs.lookup key).getD dflt)
  | _ => .error ()

/-- Pydantic validation of a required str field. -/
def asStr : RawVal → Except Unit String
  | .vstr s => .ok s
  | _ => .error ()

/-- Pydantic validation of an Optional str field. -/
def optStr : RawVal → Except Unit (Option String)
  | .vnull => .ok none
  | .vstr s => .ok (some s)
  | _ => .error ()

/-- Python str() of a raw value, which never raises; the renderings of the
non-string cases are fixed placeholder texts. -/
def pyStr : RawVal → String
  | .vnull => "None"
  | .vstr s => s
  | .vnum n => toString n
  | .vdict _ => "dict"

structure NewsItem where
  title : String
  link : String
  provider : String
  date : String
  summary : Option String
deriving DecidableEq

/-- One iteration of the get_news loop: the defensive field extraction of
the method body followed by the pydantic validation performed by the
NewsItem constructor.  An Except error stands for an exception raised
anywhere in the iteration. -/
def parseNewsItem (item : RawVal) : Except Unit NewsItem := do
  let content0 ← pyGet item "content" (.vdict [])
  let content := if pyTruthy content0 then content0 else item
  let titleRaw ← do
    let t1 ← pyGet content "title" (.vstr "")
    if pyTruthy t1 then pure t1 else pyGet item "title" (.vstr "")
  let title ← asStr titleRaw
  let ctu ← pyGet content "clickThroughUrl" .vnull
  let linkRaw ←
    if pyTruthy ctu then do
      let c ← pyGet content "clickThroughUrl" (.vdict [])
      pyGet c "url" (.vstr "#")
    else pyGet item "link" (.vstr "#")
  let link ← asStr linkRaw
  let prov ← pyGet content "provider" .vnull
  let providerRaw ←
    if pyTruthy prov then do
      let c ← pyGet content "provider" (.vdict [])
      pyGet c "displayName" (.vstr "Source")
    else pyGet item "publisher" (.vstr "Source")
  let provider ← asStr providerRaw
  let pd ← pyGet content "pubDate" .vnull
  let date ←
    if pyTruthy pd then do
      let s ← asStr (← pyGet content "pubDate" (.vstr ""))
      pure (s.take 10)
    else do
      let v ← pyGet item "providerPublishTime" (.vstr "")
      pure (pyStr v)
  let summaryRaw ← pyGet content "summary" (.vstr "")
  let summary ← optStr summaryRaw
  pure ⟨title, link, provider, date, summary⟩

/-- MarketDataProvider.get_news: normalise every raw item in order; the
surrounding try/except returns the empty list as soon as any single item
raises. -/
def get_news (raw_news : List RawVal) : List NewsItem :=
  match raw_news.mapM parseNewsItem with
  | .ok items => items
  | .error _ => []

/-- C9 (amended): get_news returns the normalisations of the raw items when
every item parses, but a single item whose normalisation raises makes the
whole call return the empty list, discarding every well-formed item of the
batch; missing fields are tolerated through defaults, structural errors are
not skipped per item. -/
theorem news_parse_all_or_nothing :
    (∀ (raws : List RawVal) (items : List NewsItem),
      raws.mapM parseNewsItem = Except.ok items → get_news raws = items) ∧
    (∀ (front back : List RawVal) (bad : RawVal),
      parseNewsItem bad = Except.error () →
      get_news (front ++ bad :: back) = []) := by
  constructor
  · intro raws items h
    unfold get_news
    rw [h]
  · intro front back bad hbad
    unfold get_news
    suffices h : (front ++ bad :: back).mapM parseNewsItem = Except.error ()
      by rw [h]
    induction front with
    | nil =>
        rw [List.nil_append, List.mapM_cons, hbad]
        rfl
    | cons a l ih =>
        rw [List.cons_append, List.mapM_cons, ih]
        cases h : parseNewsItem a <;> rfl

def goodRaw : RawVal :=
  .vdict [("content", .vdict [("title", .vstr "BTC rally"),
    ("summary", .vstr "Prices up"),
    ("pubDate", .vstr "2024-05-06T12:00:00Z"),
    ("provider", .vdict [("displayName", .vstr "NewsWire")]),
    ("clickThroughUrl", .vdict [("url", .vstr "https://example.com/a")])])]

def badRaw : RawVal := .vstr "malformed"

def goodNews : NewsItem :=
  { title := "BTC rally", link := "https://example.com/a",
    provider := "NewsWire", date := "2024-05-06", summary := some "Prices up" }

/-- C9 counterexample: a batch of one well-formed item followed by one
malformed item; the well-formed item normalises on its own, the malformed
one raises, and get_news returns the empty list instead of the normalised
well-formed item, so malformed items are not skipped individually. -/
theorem news_batch_abort_counterexample :
    parseNewsItem goodRaw = Except.ok goodNews ∧
    parseNewsItem badRaw = Except.error () ∧
    get_news [goodRaw, badRaw] = [] := by
  refine ⟨rfl, rfl, rfl⟩

/-- C9 witness: the all-parsed case applied to the concrete singleton batch
of the well-formed item. -/
theorem news_parse_all_or_nothing_witness :
    get_news [goodRaw] = [goodNews] :=
  news_parse_all_or_nothing.1 [goodRaw] [goodNews] rfl

end Predictor
